import Mathlib

set_option autoImplicit false

/-!
Verification development for the typed client and local-cache layer
(`client`, `clientset`, `cache` packages).  The store and informer
dispatch semantics delegated to the external `k8s.io/client-go`
library are modelled from the specification; the wrappers and the
typed REST client are embedded from the source files.
-/

/-- A typed resource object: identity (namespace + name), server-assigned
resource version, and an opaque attribute payload. -/
structure Obj where
  ns : String
  name : String
  resourceVersion : String
  payload : Nat
deriving DecidableEq, Repr

/-- The zero value of the object type, as produced by Go for an
uninitialised result variable. -/
instance : Inhabited Obj := ⟨⟨"", "", "", 0⟩⟩

/-- Modelled from the spec: the derived store key ("namespace/name, or name
alone for cluster-scoped kinds"); the key function itself
(client-go MetaNamespaceKeyFunc) is not part of this repository. -/
def metaNamespaceKey (o : Obj) : String :=
  if o.ns = "" then o.name else o.ns ++ "/" ++ o.name

/-- Local mirror state: a keyed association list, one entry per key in any
state reachable through the store operations. -/
abbrev StoreState := List (String × Obj)

/-- A sequence of objects (the result type of store listing). -/
abbrev ObjSeq := List Obj

/-- A sequence of strings (keys, subresource paths). -/
abbrev StrSeq := List String

/-- Whether some entry of the state carries the given key. -/
def containsKey : StoreState → String → Bool
  | [], _ => false
  | p :: rest, k => if p.1 = k then true else containsKey rest k

/-- The object stored under the given key, if any. -/
def lookupKey : StoreState → String → Option Obj
  | [], _ => none
  | p :: rest, k => if p.1 = k then some p.2 else lookupKey rest k

/-- Overwrite the entries carrying the given key with the new object. -/
def replaceKey : StoreState → String → Obj → StoreState
  | [], _, _ => []
  | p :: rest, k, o =>
    if p.1 = k then (k, o) :: replaceKey rest k o else p :: replaceKey rest k o

/-- Remove the entries carrying the given key. -/
def removeKey : StoreState → String → StoreState
  | [], _ => []
  | p :: rest, k => if p.1 = k then removeKey rest k else p :: removeKey rest k

/-- Map-style upsert: replace the entry in place when the key is present,
append a fresh entry otherwise. -/
def upsertKey (s : StoreState) (k : String) (o : Obj) : StoreState :=
  if containsKey s k then replaceKey s k o else s ++ [(k, o)]

/-- Error classification at the transport boundary (spec section 6). -/
inductive Err where
  | timeout
  | notFound
  | conflict
  | forbidden
  | staleResourceVersion
  | other (msg : String)
deriving DecidableEq, Repr

/-- Modelled from the spec: the underlying thread-safe `cache.Store`
(client-go) backing the wrapper; upsert keyed by the derived key, a total
operation that never fails for well-formed keys. -/
def cacheStore.Add (s : StoreState) (o : Obj) : StoreState × Option Err :=
  (upsertKey s (metaNamespaceKey o) o, none)

/-- Modelled from the spec: underlying store update, the same keyed upsert. -/
def cacheStore.Update (s : StoreState) (o : Obj) : StoreState × Option Err :=
  (upsertKey s (metaNamespaceKey o) o, none)

/-- Modelled from the spec: underlying store delete; a missing key is a
no-op, not an error. -/
def cacheStore.Delete (s : StoreState) (o : Obj) : StoreState × Option Err :=
  (removeKey s (metaNamespaceKey o), none)

/-- Modelled from the spec: underlying store snapshot listing (untyped). -/
def cacheStore.List (s : StoreState) : ObjSeq :=
  s.map (fun p => p.2)

/-- Modelled from the spec: underlying store key listing. -/
def cacheStore.ListKeys (s : StoreState) : StrSeq :=
  s.map (fun p => p.1)

/-- Modelled from the spec: underlying keyed lookup, returning the untyped
item (possibly nil), an existence flag and an error (always nil). -/
def cacheStore.GetByKey (s : StoreState) (k : String) :
    Option Obj × Bool × Option Err :=
  match lookupKey s k with
  | some x => (some x, true, none)
  | none => (none, false, none)

/-- Modelled from the spec: underlying lookup by an object's own key. -/
def cacheStore.Get (s : StoreState) (o : Obj) :
    Option Obj × Bool × Option Err :=
  cacheStore.GetByKey s (metaNamespaceKey o)

/-- Modelled from the spec: atomic full replacement — the new state is
built from the given items alone, the previous contents are dropped. -/
def cacheStore.Replace (_s : StoreState) (items : ObjSeq) (_rv : String) :
    StoreState × Option Err :=
  (items.foldl (fun acc o => upsertKey acc (metaNamespaceKey o) o) [], none)

/-- Embeds `store[T].Add` (src/cache/informer.go:58): delegates to the
underlying `cache.Store`. -/
def store.Add (s : StoreState) (o : Obj) : StoreState × Option Err :=
  cacheStore.Add s o

/-- Embeds `store[T].Update` (src/cache/informer.go:63): delegates to the
underlying `cache.Store`. -/
def store.Update (s : StoreState) (o : Obj) : StoreState × Option Err :=
  cacheStore.Update s o

/-- Embeds `store[T].Delete` (src/cache/informer.go:68): delegates to the
underlying `cache.Store`. -/
def store.Delete (s : StoreState) (o : Obj) : StoreState × Option Err :=
  cacheStore.Delete s o

/-- Embeds `store[T].List` (src/cache/informer.go:73): converts every
untyped item back to the typed object (identity in the model). -/
def store.List (s : StoreState) : ObjSeq :=
  (cacheStore.List s).map (fun item => item)

/-- Embeds `store[T].Replace` (src/cache/informer.go:103): converts the
typed items to untyped ones and delegates. -/
def store.Replace (s : StoreState) (items : ObjSeq) (resourceVersion : String) :
    StoreState × Option Err :=
  cacheStore.Replace s (items.map (fun item => item)) resourceVersion

-- Basic lemmas about the keyed state.

theorem containsKey_append (s t : StoreState) (k : String) :
    containsKey (s ++ t) k = (containsKey s k || containsKey t k) := by
  induction s with
  | nil => simp [containsKey]
  | cons p rest ih =>
    by_cases h : p.1 = k <;> simp [containsKey, h, ih]

theorem replaceKey_append (s t : StoreState) (k : String) (o : Obj) :
    replaceKey (s ++ t) k o = replaceKey s k o ++ replaceKey t k o := by
  induction s with
  | nil => simp [replaceKey]
  | cons p rest ih =>
    by_cases h : p.1 = k <;> simp [replaceKey, h, ih]

theorem replaceKey_of_not_contains (s : StoreState) (k : String) (o : Obj)
    (h : containsKey s k = false) : replaceKey s k o = s := by
  induction s with
  | nil => rfl
  | cons p rest ih =>
    by_cases hp : p.1 = k
    · simp [containsKey, hp] at h
    · simp [containsKey, hp] at h
      simp [replaceKey, hp, ih h]

theorem removeKey_of_not_contains (s : StoreState) (k : String)
    (h : containsKey s k = false) : removeKey s k = s := by
  induction s with
  | nil => rfl
  | cons p rest ih =>
    by_cases hp : p.1 = k
    · simp [containsKey, hp] at h
    · simp [containsKey, hp] at h
      simp [removeKey, hp, ih h]

theorem lookupKey_eq_none_iff (s : StoreState) (k : String) :
    lookupKey s k = none ↔ containsKey s k = false := by
  induction s with
  | nil => simp [lookupKey, containsKey]
  | cons p rest ih =>
    by_cases hp : p.1 = k <;> simp [lookupKey, containsKey, hp, ih]

theorem containsKey_replaceKey (s : StoreState) (k : String) (o : Obj) :
    containsKey (replaceKey s k o) k = containsKey s k := by
  induction s with
  | nil => rfl
  | cons p rest ih =>
    by_cases hp : p.1 = k <;> simp [replaceKey, containsKey, hp, ih]

theorem replaceKey_idem (s : StoreState) (k : String) (o : Obj) :
    replaceKey (replaceKey s k o) k o = replaceKey s k o := by
  induction s with
  | nil => rfl
  | cons p rest ih =>
    by_cases hp : p.1 = k <;> simp [replaceKey, hp, ih]

theorem containsKey_upsertKey_self (s : StoreState) (k : String) (o : Obj) :
    containsKey (upsertKey s k o) k = true := by
  unfold upsertKey
  by_cases h : containsKey s k
  · simp [h, containsKey_replaceKey]
  · simp at h
    simp [h, containsKey_append, containsKey]

theorem upsertKey_idem (s : StoreState) (k : String) (o : Obj) :
    upsertKey (upsertKey s k o) k o = upsertKey s k o := by
  by_cases h : containsKey s k
  · unfold upsertKey
    simp [h, containsKey_replaceKey, replaceKey_idem]
  · simp at h
    unfold upsertKey
    simp [h, containsKey_append, containsKey, replaceKey_append,
      replaceKey_of_not_contains s k o h, replaceKey]

theorem lookupKey_replaceKey_self (s : StoreState) (k : String) (o : Obj)
    (h : containsKey s k = true) : lookupKey (replaceKey s k o) k = some o := by
  induction s with
  | nil => simp [containsKey] at h
  | cons p rest ih =>
    by_cases hp : p.1 = k
    · simp [replaceKey, hp, lookupKey]
    · simp [containsKey, hp] at h
      simp [replaceKey, hp, lookupKey, ih h]

theorem lookupKey_append_right (s t : StoreState) (k : String)
    (h : containsKey s k = false) : lookupKey (s ++ t) k = lookupKey t k := by
  induction s with
  | nil => rfl
  | cons p rest ih =>
    by_cases hp : p.1 = k
    · simp [containsKey, hp] at h
    · simp [containsKey, hp] at h
      simp [lookupKey, hp, ih h]

theorem lookupKey_upsertKey_self (s : StoreState) (k : String) (o : Obj) :
    lookupKey (upsertKey s k o) k = some o := by
  unfold upsertKey
  by_cases h : containsKey s k
  · simp [h, lookupKey_replaceKey_self s k o h]
  · simp at h
    simp [h, lookupKey_append_right s [(k, o)] k h, lookupKey]

-- Watch events and handler notifications.

/-- A watch event: one of Added, Modified, Deleted, carrying an object
(Bookmark/Error events terminate or advance the stream and never reach the
store, so they are not part of the mutation semantics). -/
inductive WatchEvent where
  | added (o : Obj)
  | modified (o : Obj)
  | deleted (o : Obj)
deriving DecidableEq, Repr

/-- A notification delivered to a `ResourceEventHandler`
(src/cache/informer.go:15): exactly one of OnAdd, OnUpdate, OnDelete. -/
inductive Notification where
  | onAdd (obj : Obj)
  | onUpdate (oldObj newObj : Obj)
  | onDelete (obj : Obj)
deriving DecidableEq, Repr

/-- Whether a notification is an OnAdd. -/
def Notification.isOnAdd : Notification → Bool
  | .onAdd _ => true
  | _ => false

/-- Modelled from the spec: the informer's per-event processing (client-go
delta handling, not part of this repository) — Added/Modified upsert the
store through the wrapper and notify OnAdd when the key was newly present,
OnUpdate when it was already present; Deleted removes the key and notifies
OnDelete, while a delete of an absent key performs no mutation and emits no
notification. -/
def applyEvent (s : StoreState) (e : WatchEvent) : StoreState × List Notification :=
  match e with
  | .added o =>
    match lookupKey s (metaNamespaceKey o) with
    | some old => ((store.Update s o).1, [.onUpdate old o])
    | none => ((store.Add s o).1, [.onAdd o])
  | .modified o =>
    match lookupKey s (metaNamespaceKey o) with
    | some old => ((store.Update s o).1, [.onUpdate old o])
    | none => ((store.Add s o).1, [.onAdd o])
  | .deleted o =>
    match lookupKey s (metaNamespaceKey o) with
    | some _ => ((store.Delete s o).1, [.onDelete o])
    | none => (s, [])

/-- Modelled from the spec: the sync loop applying a finite sequence of
watch events in arrival order, accumulating notifications in the order the
mutations were applied. -/
def processEvents : StoreState → List WatchEvent → StoreState × List Notification
  | s, [] => (s, [])
  | s, e :: rest =>
    ((processEvents (applyEvent s e).1 rest).1,
     (applyEvent s e).2 ++ (processEvents (applyEvent s e).1 rest).2)

theorem processEvents_append (s : StoreState) (es₁ es₂ : List WatchEvent) :
    processEvents s (es₁ ++ es₂)
      = ((processEvents (processEvents s es₁).1 es₂).1,
         (processEvents s es₁).2 ++ (processEvents (processEvents s es₁).1 es₂).2) := by
  induction es₁ generalizing s with
  | nil => simp [processEvents]
  | cons e rest ih =>
    simp [processEvents, ih (applyEvent s e).1]

-- Informer handler wiring and sync-session model.

/-- An observer's identity; the informer holds at most one observer,
supplied at construction. -/
abbrev HandlerId := String

/-- Embeds the handler-adapter wiring of `Informer`
(src/cache/informer.go:114-127): when the supplied handler is non-nil an
adapter forwarding each callback to it is installed, otherwise no adapter
is installed at all. -/
def informerHandler (h : Option HandlerId) : Option HandlerId :=
  match h with
  | some handler => some handler
  | none => none

/-- Modelled from the spec: the dispatcher delivers each notification to
every currently registered handler — here the at-most-one installed
adapter; with no adapter installed nothing is delivered. -/
def dispatchAll (adapter : Option HandlerId) (ns : List Notification) :
    List (HandlerId × Notification) :=
  match adapter with
  | some h => ns.map (fun n => (h, n))
  | none => []

/-- Modelled from the spec: a full informer run over a finite event
sequence — the store is mutated exactly as by `processEvents` and each
resulting notification is delivered through the installed adapter. -/
def informerRun (h : Option HandlerId) (s : StoreState) (es : List WatchEvent) :
    StoreState × List (HandlerId × Notification) :=
  ((processEvents s es).1, dispatchAll (informerHandler h) (processEvents s es).2)

/-- A sync session: the handler installed at `Informer` construction, the
current store state, and the notifications delivered so far. -/
structure Session where
  handler : Option HandlerId
  stored : StoreState
  delivered : List (HandlerId × Notification)
deriving DecidableEq, Repr

/-- Embeds the construction performed by `Informer`
(src/cache/informer.go:113-153): the handler is fixed here, before the
sync session starts; the store begins empty. -/
def Informer.start (h : Option HandlerId) : Session :=
  ⟨informerHandler h, [], []⟩

/-- The operations available on a running sync session.  The `Informer`
surface offers no operation that touches the handler: the session can only
consume a watch event or perform a relist. -/
inductive SessionOp where
  | deliver (e : WatchEvent)
  | relist (items : ObjSeq) (rv : String)
deriving DecidableEq, Repr

/-- Modelled from the spec: one step of the sync session — a watch event
is applied to the store and its notifications are dispatched; a relist
replaces the store contents atomically. -/
def Session.step (st : Session) (op : SessionOp) : Session :=
  match op with
  | .deliver e =>
    ⟨st.handler, (applyEvent st.stored e).1,
     st.delivered ++ dispatchAll st.handler (applyEvent st.stored e).2⟩
  | .relist items rv =>
    ⟨st.handler, (store.Replace st.stored items rv).1, st.delivered⟩

/-- Run a sync session over a finite sequence of operations. -/
def Session.run (st : Session) (ops : List SessionOp) : Session :=
  ops.foldl Session.step st

theorem Session.step_handler (st : Session) (op : SessionOp) :
    (Session.step st op).handler = st.handler := by
  cases op <;> rfl

theorem Session.run_handler (st : Session) (ops : List SessionOp) :
    (Session.run st ops).handler = st.handler := by
  induction ops generalizing st with
  | nil => rfl
  | cons op rest ih =>
    simp [Session.run] at ih
    simp [Session.run, List.foldl_cons, ih, Session.step_handler]

-- Typed lookup wrappers with the nil guard (src/cache/informer.go:83-98).

/-- A Go runtime panic; the only one reachable in the embedded fragment is
an interface conversion on a nil item. -/
inductive GoPanic where
  | nilInterfaceConversion
deriving DecidableEq, Repr

/-- The Go type assertion `item.(T)`: succeeds on a non-nil item and
panics on a nil one. -/
def typeAssertT : Option Obj → Except GoPanic Obj
  | some x => .ok x
  | none => .error .nilInterfaceConversion

/-- Whether a lookup completed without panicking. -/
def lookupOk (r : Except GoPanic (Obj × Bool × Option Err)) : Bool :=
  match r with
  | .ok _ => true
  | .error _ => false

/-- Embeds `store[T].Get` (src/cache/informer.go:83): the type assertion
runs only under the `i != nil` guard; otherwise the zero value of the
object type is returned together with the existence flag and error. -/
def store.Get (s : StoreState) (o : Obj) :
    Except GoPanic (Obj × Bool × Option Err) :=
  match cacheStore.Get s o with
  | (some i, exists_, err) =>
    match typeAssertT (some i) with
    | .ok item => .ok (item, exists_, err)
    | .error p => .error p
  | (none, exists_, err) => .ok (default, exists_, err)

/-- Embeds `store[T].GetByKey` (src/cache/informer.go:92): same nil guard
around the type assertion. -/
def store.GetByKey (s : StoreState) (k : String) :
    Except GoPanic (Obj × Bool × Option Err) :=
  match cacheStore.GetByKey s k with
  | (some i, exists_, err) =>
    match typeAssertT (some i) with
    | .ok item => .ok (item, exists_, err)
    | .error p => .error p
  | (none, exists_, err) => .ok (default, exists_, err)

-- Typed resource client (src/unnamed/part_001).

/-- metav1.ListOptions, restricted to the fields the embedded code reads
or forwards: selectors, watch flag, resume cursor, timeout. -/
structure ListOptions where
  labelSelector : String := ""
  fieldSelector : String := ""
  watch : Bool := false
  resourceVersion : String := ""
  timeoutSeconds : Option Nat := none
deriving DecidableEq, Repr

/-- metav1.GetOptions. -/
structure GetOptions where
  resourceVersion : String := ""
deriving DecidableEq, Repr

/-- metav1.CreateOptions (opaque payload forwarded to the transport). -/
structure CreateOptions where
  fieldManager : String := ""
deriving DecidableEq, Repr

/-- metav1.UpdateOptions (opaque payload forwarded to the transport). -/
structure UpdateOptions where
  fieldManager : String := ""
deriving DecidableEq, Repr

/-- metav1.DeleteOptions (opaque payload forwarded to the transport). -/
structure DeleteOptions where
  gracePeriodSeconds : Option Nat := none
deriving DecidableEq, Repr

/-- metav1.PatchOptions (opaque payload forwarded to the transport). -/
structure PatchOptions where
  fieldManager : String := ""
  force : Option Bool := none
deriving DecidableEq, Repr

/-- The HTTP verb selected by the request-builder chain. -/
inductive Verb where
  | get
  | post
  | put
  | del
  | patch (pt : String)
deriving DecidableEq, Repr

/-- The versioned parameters attached by `VersionedParams`: exactly the
caller's options value, tagged by its type. -/
inductive Params where
  | nothing
  | getP (o : GetOptions)
  | listP (o : ListOptions)
  | createP (o : CreateOptions)
  | updateP (o : UpdateOptions)
  | patchP (o : PatchOptions)
deriving DecidableEq, Repr

/-- The request body attached by `Body`. -/
inductive ReqBody where
  | nothing
  | obj (o : Obj)
  | deleteOpts (o : DeleteOptions)
  | patchData (d : String)
deriving DecidableEq, Repr

/-- One transport request, as assembled by a full request-builder chain
ending in `Do` or `Watch`. -/
structure Request where
  verb : Verb := .get
  ns : String := ""
  resource : String := ""
  name : Option String := none
  subresource : StrSeq := []
  params : Params := .nothing
  timeout : Nat := 0
  body : ReqBody := .nothing
  isWatch : Bool := false
deriving DecidableEq, Repr

/-- The timeout derived from ListOptions.TimeoutSeconds
(src/unnamed/part_001:108-111), in seconds; zero when unset. -/
def timeoutOf (opts : ListOptions) : Nat :=
  match opts.timeoutSeconds with
  | some n => n
  | none => 0

/-- Embeds the `client[T, L]` struct (src/unnamed/part_001:56): bound to
one resource kind and one namespace; the scheme, parameter codec and REST
transport are consumed opaquely and appear as the transport argument of
each operation. -/
structure Client where
  resource : String
  ns : String
deriving DecidableEq, Repr

/-- Embeds `NewClient` (src/unnamed/part_001:68): records the resource and
namespace bindings of the new instance. -/
def NewClient (resource namespc : String) : Client :=
  ⟨resource, namespc⟩

/-- A typed object list as returned by List: items plus the collection's
resource version. -/
structure ObjList where
  items : ObjSeq := []
  resourceVersion : String := ""
deriving DecidableEq, Repr

/-- An open watch stream handle as returned by the transport. -/
structure WatchHandle where
  streamId : Nat := 0
deriving DecidableEq, Repr

/-- The request issued by `client[T, L].Get` (src/unnamed/part_001:94). -/
def Client.getReq (c : Client) (name : String) (options : GetOptions) : Request :=
  { verb := .get, ns := c.ns, resource := c.resource, name := some name,
    params := .getP options }

/-- The request issued by `client[T, L].List` (src/unnamed/part_001:107). -/
def Client.listReq (c : Client) (opts : ListOptions) : Request :=
  { verb := .get, ns := c.ns, resource := c.resource,
    params := .listP opts, timeout := timeoutOf opts }

/-- The request issued by `client[T, L].Watch` (src/unnamed/part_001:124):
the timeout is derived first, then `opts.Watch` is set to true and the
options are attached. -/
def Client.watchReq (c : Client) (opts : ListOptions) : Request :=
  { verb := .get, ns := c.ns, resource := c.resource,
    params := .listP { opts with watch := true }, timeout := timeoutOf opts,
    isWatch := true }

/-- The request issued by `client[T, L].Create` (src/unnamed/part_001:139). -/
def Client.createReq (c : Client) (cr : Obj) (opts : CreateOptions) : Request :=
  { verb := .post, ns := c.ns, resource := c.resource,
    params := .createP opts, body := .obj cr }

/-- The request issued by `client[T, L].Update` (src/unnamed/part_001:152):
named after the body object's own name. -/
def Client.updateReq (c : Client) (cr : Obj) (opts : UpdateOptions) : Request :=
  { verb := .put, ns := c.ns, resource := c.resource, name := some cr.name,
    params := .updateP opts, body := .obj cr }

/-- The request issued by `client[T, L].UpdateStatus`
(src/unnamed/part_001:167): the status subresource of the object. -/
def Client.updateStatusReq (c : Client) (cr : Obj) (opts : UpdateOptions) : Request :=
  { verb := .put, ns := c.ns, resource := c.resource, name := some cr.name,
    subresource := ["status"], params := .updateP opts, body := .obj cr }

/-- The request issued by `client[T, L].Delete` (src/unnamed/part_001:182):
the delete options travel in the body. -/
def Client.deleteReq (c : Client) (name : String) (opts : DeleteOptions) : Request :=
  { verb := .del, ns := c.ns, resource := c.resource, name := some name,
    body := .deleteOpts opts }

/-- The request issued by `client[T, L].DeleteCollection`
(src/unnamed/part_001:193): list options as parameters, delete options in
the body, no name. -/
def Client.deleteCollectionReq (c : Client) (opts : DeleteOptions)
    (listOpts : ListOptions) : Request :=
  { verb := .del, ns := c.ns, resource := c.resource,
    params := .listP listOpts, timeout := timeoutOf listOpts,
    body := .deleteOpts opts }

/-- The request issued by `client[T, L].Patch` (src/unnamed/part_001:209). -/
def Client.patchReq (c : Client) (name : String) (pt : String) (data : String)
    (opts : PatchOptions) (subresources : StrSeq) : Request :=
  { verb := .patch pt, ns := c.ns, resource := c.resource, name := some name,
    subresource := subresources, params := .patchP opts, body := .patchData data }

/-- Embeds `client[T, L].Get` (src/unnamed/part_001:94): one straight-line
request-builder chain executed once; the outcome, error included, is the
transport's answer on that request. -/
def Client.Get (c : Client) (transport : Request → Except Err Obj)
    (name : String) (options : GetOptions) : Except Err Obj :=
  transport (c.getReq name options)

/-- Embeds `client[T, L].List` (src/unnamed/part_001:107). -/
def Client.List (c : Client) (transport : Request → Except Err ObjList)
    (opts : ListOptions) : Except Err ObjList :=
  transport (c.listReq opts)

/-- Embeds `client[T, L].Watch` (src/unnamed/part_001:124). -/
def Client.Watch (c : Client) (transport : Request → Except Err WatchHandle)
    (opts : ListOptions) : Except Err WatchHandle :=
  transport (c.watchReq opts)

/-- Embeds `client[T, L].Create` (src/unnamed/part_001:139). -/
def Client.Create (c : Client) (transport : Request → Except Err Obj)
    (cr : Obj) (opts : CreateOptions) : Except Err Obj :=
  transport (c.createReq cr opts)

/-- Embeds `client[T, L].Update` (src/unnamed/part_001:152). -/
def Client.Update (c : Client) (transport : Request → Except Err Obj)
    (cr : Obj) (opts : UpdateOptions) : Except Err Obj :=
  transport (c.updateReq cr opts)

/-- Embeds `client[T, L].UpdateStatus` (src/unnamed/part_001:167). -/
def Client.UpdateStatus (c : Client) (transport : Request → Except Err Obj)
    (cr : Obj) (opts : UpdateOptions) : Except Err Obj :=
  transport (c.updateStatusReq cr opts)

/-- Embeds `client[T, L].Delete` (src/unnamed/part_001:182). -/
def Client.Delete (c : Client) (transport : Request → Option Err)
    (name : String) (opts : DeleteOptions) : Option Err :=
  transport (c.deleteReq name opts)

/-- Embeds `client[T, L].DeleteCollection` (src/unnamed/part_001:193). -/
def Client.DeleteCollection (c : Client) (transport : Request → Option Err)
    (opts : DeleteOptions) (listOpts : ListOptions) : Option Err :=
  transport (c.deleteCollectionReq opts listOpts)

/-- Embeds `client[T, L].Patch` (src/unnamed/part_001:209). -/
def Client.Patch (c : Client) (transport : Request → Except Err Obj)
    (name : String) (pt : String) (data : String) (opts : PatchOptions)
    (subresources : StrSeq) : Except Err Obj :=
  transport (c.patchReq name pt data opts subresources)

/-- Embeds the `ListFunc` closure built by `Informer`
(src/cache/informer.go:135-140): the caller-supplied options modifier, when
present, is applied to the incoming options; the result is handed to the
client's List unchanged. -/
def informerListFunc (c : Client) (optionsModifier : Option (ListOptions → ListOptions))
    (transport : Request → Except Err ObjList) (options : ListOptions) :
    Except Err ObjList :=
  match optionsModifier with
  | some m => Client.List c transport (m options)
  | none => Client.List c transport options

/-- Embeds the `WatchFunc` closure built by `Informer`
(src/cache/informer.go:141-146). -/
def informerWatchFunc (c : Client) (optionsModifier : Option (ListOptions → ListOptions))
    (transport : Request → Except Err WatchHandle) (options : ListOptions) :
    Except Err WatchHandle :=
  match optionsModifier with
  | some m => Client.Watch c transport (m options)
  | none => Client.Watch c transport options

-- Supporting lemmas for Replace.

theorem foldl_upsert_fresh (items : ObjSeq) (acc : StoreState)
    (hfresh : ∀ o ∈ items, containsKey acc (metaNamespaceKey o) = false)
    (hnd : (items.map metaNamespaceKey).Nodup) :
    items.foldl (fun st o => upsertKey st (metaNamespaceKey o) o) acc
      = acc ++ items.map (fun o => (metaNamespaceKey o, o)) := by
  induction items generalizing acc with
  | nil => simp
  | cons o rest ih =>
    have hko : containsKey acc (metaNamespaceKey o) = false :=
      hfresh o (List.mem_cons_self o rest)
    have hstep : upsertKey acc (metaNamespaceKey o) o = acc ++ [(metaNamespaceKey o, o)] := by
      simp [upsertKey, hko]
    have hnd' : (rest.map metaNamespaceKey).Nodup := by
      simp [List.nodup_cons] at hnd
      exact hnd.2
    have hnotin : ∀ x ∈ rest, ¬ metaNamespaceKey x = metaNamespaceKey o := by
      simp [List.nodup_cons] at hnd
      exact hnd.1
    have hfresh' : ∀ o' ∈ rest,
        containsKey (acc ++ [(metaNamespaceKey o, o)]) (metaNamespaceKey o') = false := by
      intro o' ho'
      have h1 := hfresh o' (List.mem_cons_of_mem o ho')
      have h2 : ¬ metaNamespaceKey o = metaNamespaceKey o' := by
        intro heq
        exact hnotin o' ho' heq.symm
      simp [containsKey_append, h1, containsKey, h2]
    calc (o :: rest).foldl (fun st o => upsertKey st (metaNamespaceKey o) o) acc
        = rest.foldl (fun st o => upsertKey st (metaNamespaceKey o) o)
            (acc ++ [(metaNamespaceKey o, o)]) := by
          simp [List.foldl_cons, hstep]
      _ = acc ++ [(metaNamespaceKey o, o)] ++ rest.map (fun o => (metaNamespaceKey o, o)) :=
          ih (acc ++ [(metaNamespaceKey o, o)]) hfresh' hnd'
      _ = acc ++ (o :: rest).map (fun o => (metaNamespaceKey o, o)) := by
          simp

theorem lookupKey_keyedMap_none (items : ObjSeq) (k : String)
    (h : k ∉ items.map metaNamespaceKey) :
    lookupKey (items.map (fun o => (metaNamespaceKey o, o))) k = none := by
  induction items with
  | nil => rfl
  | cons o rest ih =>
    simp at h
    have h1 : ¬ metaNamespaceKey o = k := fun heq => h.1 heq.symm
    simp [lookupKey, h1, ih (by simpa using h.2)]

-- Concrete states and objects used by the closed witness statements.

/-- A concrete namespaced object. -/
def objA : Obj := ⟨"default", "a", "1", 0⟩

/-- A second concrete object with a distinct key. -/
def objB : Obj := ⟨"default", "b", "2", 0⟩

/-- A concrete store state holding one unrelated key. -/
def demoState : StoreState := [("default/c", ⟨"default", "c", "3", 1⟩)]

-- Helper facts about event application.

theorem applyEvent_added_fst (s : StoreState) (o : Obj) :
    (applyEvent s (.added o)).1 = upsertKey s (metaNamespaceKey o) o := by
  unfold applyEvent
  cases h : lookupKey s (metaNamespaceKey o) <;>
    simp [h, store.Add, store.Update, cacheStore.Add, cacheStore.Update]

theorem applyEvent_modified_fst (s : StoreState) (o : Obj) :
    (applyEvent s (.modified o)).1 = upsertKey s (metaNamespaceKey o) o := by
  unfold applyEvent
  cases h : lookupKey s (metaNamespaceKey o) <;>
    simp [h, store.Add, store.Update, cacheStore.Add, cacheStore.Update]

theorem applyEvent_added_again (s : StoreState) (o : Obj) :
    applyEvent (applyEvent s (.added o)).1 (.added o)
      = ((applyEvent s (.added o)).1, [.onUpdate o o]) := by
  rw [applyEvent_added_fst s o]
  have hl : lookupKey (upsertKey s (metaNamespaceKey o) o) (metaNamespaceKey o) = some o :=
    lookupKey_upsertKey_self s (metaNamespaceKey o) o
  unfold applyEvent
  simp [hl, store.Update, cacheStore.Update, upsertKey_idem]

/-- C1: Idempotent upsert — applying `store.Add` (or `store.Update`) twice
with the same object leaves the store state identical to applying it once;
at the event level, the second of two identical Added events finds the key
already present and behaves as a Modified: the pair triggers at most one
OnAdd, and the second event contributes exactly one OnUpdate and never a
second OnAdd. -/
theorem C1_idempotent_upsert (s : StoreState) (o : Obj) :
    (store.Add (store.Add s o).1 o).1 = (store.Add s o).1 ∧
    (store.Update (store.Update s o).1 o).1 = (store.Update s o).1 ∧
    applyEvent (applyEvent s (.added o)).1 (.added o)
      = ((applyEvent s (.added o)).1, [.onUpdate o o]) ∧
    (processEvents s [.added o, .added o]).1 = (applyEvent s (.added o)).1 ∧
    (processEvents s [.added o, .added o]).2.countP Notification.isOnAdd ≤ 1 := by
  refine ⟨?_, ?_, applyEvent_added_again s o, ?_, ?_⟩
  · simp [store.Add, cacheStore.Add, upsertKey_idem]
  · simp [store.Update, cacheStore.Update, upsertKey_idem]
  · simp [processEvents, applyEvent_added_again s o]
  · have h2 := applyEvent_added_again s o
    simp [processEvents, h2]
    unfold applyEvent
    cases h : lookupKey s (metaNamespaceKey o) <;>
      simp [h, List.countP_cons, Notification.isOnAdd]

/-- C2: Replace is a full atomic replacement — for any prior state and any
item list with pairwise distinct keys, `store.Replace` succeeds, the new
state lists exactly the given items, and every key absent from the items
(in particular every previously present object not in the items) is no
longer in the store; the result does not depend on the prior state at all. -/
theorem C2_replace_atomic (s : StoreState) (items : ObjSeq) (rv : String)
    (hnd : (items.map metaNamespaceKey).Nodup) :
    (store.Replace s items rv).2 = none ∧
    store.List (store.Replace s items rv).1 = items ∧
    (∀ k : String, k ∉ items.map metaNamespaceKey →
      lookupKey (store.Replace s items rv).1 k = none) ∧
    (∀ s' : StoreState, store.Replace s' items rv = store.Replace s items rv) := by
  have hbuild : (store.Replace s items rv).1
      = items.map (fun o => (metaNamespaceKey o, o)) := by
    have := foldl_upsert_fresh items []
      (fun o _ => rfl) hnd
    simp [store.Replace, cacheStore.Replace]
    simpa using this
  refine ⟨rfl, ?_, ?_, fun s' => rfl⟩
  · rw [hbuild]
    simp only [store.List, cacheStore.List, List.map_map]
    exact List.map_id' items
  · intro k hk
    rw [hbuild]
    exact lookupKey_keyedMap_none items k hk

/-- C2 witness: a concrete replace over a non-empty prior state with two
fresh, distinct-keyed items. -/
theorem C2_replace_atomic_witness :
    (([objA, objB].map metaNamespaceKey).Nodup) ∧
    store.List (store.Replace demoState [objA, objB] "9").1 = [objA, objB] := by
  exact ⟨by decide, (C2_replace_atomic demoState [objA, objB] "9" (by decide)).2.1⟩

/-- C3: Exactly one notification per mutation — each event that mutates the
store yields exactly one notification whose kind is determined by the key's
presence (newly present: OnAdd, already present: OnUpdate with the stored
old object and the event's new object, removed: OnDelete), with the
mutated objects passed through unchanged; a Deleted event for an absent key
mutates nothing and notifies nothing; over an event sequence the
notifications are emitted in application order and the installed adapter
delivers every notification to the registered handler in that order. -/
theorem C3_exactly_one_notification (s : StoreState) (o : Obj) :
    ((applyEvent s (.added o)).2
      = match lookupKey s (metaNamespaceKey o) with
        | none => [.onAdd o]
        | some old => [.onUpdate old o]) ∧
    ((applyEvent s (.modified o)).2
      = match lookupKey s (metaNamespaceKey o) with
        | none => [.onAdd o]
        | some old => [.onUpdate old o]) ∧
    ((applyEvent s (.deleted o)).2
      = match lookupKey s (metaNamespaceKey o) with
        | none => []
        | some _ => [.onDelete o]) ∧
    ((applyEvent s (.deleted o)).1
      = match lookupKey s (metaNamespaceKey o) with
        | none => s
        | some _ => (store.Delete s o).1) ∧
    (applyEvent s (.added o)).1 = (store.Add s o).1 ∧
    (∀ es₁ es₂ : List WatchEvent,
      (processEvents s (es₁ ++ es₂)).2
        = (processEvents s es₁).2
          ++ (processEvents (processEvents s es₁).1 es₂).2) ∧
    (∀ (h : HandlerId) (es : List WatchEvent),
      (informerRun (some h) s es).2
        = (processEvents s es).2.map (fun n => (h, n))) := by
  refine ⟨?_, ?_, ?_, ?_, ?_, ?_, ?_⟩
  · unfold applyEvent
    cases h : lookupKey s (metaNamespaceKey o) <;> simp [h]
  · unfold applyEvent
    cases h : lookupKey s (metaNamespaceKey o) <;> simp [h]
  · unfold applyEvent
    cases h : lookupKey s (metaNamespaceKey o) <;> simp [h]
  · unfold applyEvent
    cases h : lookupKey s (metaNamespaceKey o) <;> simp [h]
  · rw [applyEvent_added_fst s o]
    simp [store.Add, cacheStore.Add]
  · intro es₁ es₂
    rw [processEvents_append s es₁ es₂]
  · intro h es
    simp [informerRun, informerHandler, dispatchAll]

/-- C4: Store mutations are total — Add, Update, Delete and Replace return
no error for any object, and deleting an object whose key is absent leaves
the state unchanged (a no-op, not an error). -/
theorem C4_mutations_total (s : StoreState) (o : Obj) :
    (store.Add s o).2 = none ∧
    (store.Update s o).2 = none ∧
    (store.Delete s o).2 = none ∧
    (∀ (items : ObjSeq) (rv : String), (store.Replace s items rv).2 = none) ∧
    (lookupKey s (metaNamespaceKey o) = none → store.Delete s o = (s, none)) := by
  refine ⟨rfl, rfl, rfl, fun items rv => rfl, ?_⟩
  intro h
  have hc : containsKey s (metaNamespaceKey o) = false :=
    (lookupKey_eq_none_iff s (metaNamespaceKey o)).mp h
  simp [store.Delete, cacheStore.Delete, removeKey_of_not_contains s (metaNamespaceKey o) hc]

/-- C4 witness: deleting an object whose key is absent from a concrete
non-empty state returns nil and leaves the state unchanged. -/
theorem C4_mutations_total_witness :
    lookupKey demoState (metaNamespaceKey objA) = none ∧
    store.Delete demoState objA = (demoState, none) :=
  ⟨by decide, (C4_mutations_total demoState objA).2.2.2.2 (by decide)⟩

/-- C9: Absent-key lookups are safe — `store.Get` and `store.GetByKey`
never panic on the type conversion (the nil guard keeps the assertion away
from a missing item), and for an absent key they return the zero value of
the object type together with exists = false and a nil error. -/
theorem C9_absent_key_safe (s : StoreState) (k : String) (o : Obj) :
    lookupOk (store.GetByKey s k) = true ∧
    lookupOk (store.Get s o) = true ∧
    (lookupKey s k = none →
      store.GetByKey s k = .ok (default, false, none)) ∧
    (lookupKey s (metaNamespaceKey o) = none →
      store.Get s o = .ok (default, false, none)) := by
  refine ⟨?_, ?_, ?_, ?_⟩
  · unfold store.GetByKey cacheStore.GetByKey
    cases h : lookupKey s k <;> simp [h, typeAssertT, lookupOk]
  · unfold store.Get cacheStore.Get cacheStore.GetByKey
    cases h : lookupKey s (metaNamespaceKey o) <;> simp [h, typeAssertT, lookupOk]
  · intro h
    unfold store.GetByKey cacheStore.GetByKey
    simp [h]
  · intro h
    unfold store.Get cacheStore.Get cacheStore.GetByKey
    simp [h]

/-- C9 witness: a concrete absent-key lookup on a non-empty state returns
the zero object, exists = false and no error, without panicking. -/
theorem C9_absent_key_safe_witness :
    lookupKey demoState "default/zz" = none ∧
    store.GetByKey demoState "default/zz" = .ok (default, false, none) :=
  ⟨by decide, (C9_absent_key_safe demoState "default/zz" objA).2.2.1 (by decide)⟩

/-- C10: Nil handler is safe — when `Informer` is invoked with a nil
handler no adapter is installed, a full run over any event sequence
delivers no notification at all (so no method is ever invoked on the nil
handler), and the store is populated exactly as it would be with any
non-nil handler. -/
theorem C10_nil_handler_safe (s : StoreState) (es : List WatchEvent) (h : HandlerId) :
    informerHandler none = none ∧
    (informerRun none s es).1 = (processEvents s es).1 ∧
    (informerRun none s es).2 = [] ∧
    (informerRun none s es).1 = (informerRun (some h) s es).1 := by
  refine ⟨rfl, rfl, ?_, rfl⟩
  simp [informerRun, informerHandler, dispatchAll]

/-- C5: No retry and unmodified error propagation — every client operation
is a single straight-line request: its outcome is exactly the transport's
answer on the one request the operation assembles, so the transport's
error value (timeout, not-found, conflict, forbidden) is returned
unchanged; two transports that agree on that single request give the
operation the same outcome (no second request is ever consulted). -/
theorem C5_single_request_passthrough (c : Client)
    (tr trB : Request → Except Err Obj) (trL : Request → Except Err ObjList)
    (trW : Request → Except Err WatchHandle) (trD : Request → Option Err)
    (name pt data : String) (cr : Obj) (go : GetOptions) (lo : ListOptions)
    (co : CreateOptions) (uo : UpdateOptions) (dopts : DeleteOptions)
    (po : PatchOptions) (subs : StrSeq) :
    Client.Get c tr name go = tr (c.getReq name go) ∧
    Client.List c trL lo = trL (c.listReq lo) ∧
    Client.Watch c trW lo = trW (c.watchReq lo) ∧
    Client.Create c tr cr co = tr (c.createReq cr co) ∧
    Client.Update c tr cr uo = tr (c.updateReq cr uo) ∧
    Client.UpdateStatus c tr cr uo = tr (c.updateStatusReq cr uo) ∧
    Client.Delete c trD name dopts = trD (c.deleteReq name dopts) ∧
    Client.DeleteCollection c trD dopts lo = trD (c.deleteCollectionReq dopts lo) ∧
    Client.Patch c tr name pt data po subs = tr (c.patchReq name pt data po subs) ∧
    (∀ e : Err, tr (c.getReq name go) = .error e → Client.Get c tr name go = .error e) ∧
    (∀ e : Err, trD (c.deleteReq name dopts) = some e →
      Client.Delete c trD name dopts = some e) ∧
    (tr (c.getReq name go) = trB (c.getReq name go) →
      Client.Get c tr name go = Client.Get c trB name go) := by
  refine ⟨rfl, rfl, rfl, rfl, rfl, rfl, rfl, rfl, rfl, ?_, ?_, ?_⟩
  · intro e he
    simpa [Client.Get] using he
  · intro e he
    simpa [Client.Delete] using he
  · intro hagree
    simpa [Client.Get] using hagree

/-- C5 witness: a concrete Get against a transport that times out surfaces
exactly that timeout. -/
theorem C5_single_request_passthrough_witness :
    ((fun _ => Except.error Err.timeout : Request → Except Err Obj)
        ((NewClient "pods" "default").getReq "a" ⟨""⟩) = Except.error Err.timeout) ∧
    Client.Get (NewClient "pods" "default") (fun _ => Except.error Err.timeout)
        "a" ⟨""⟩ = Except.error Err.timeout :=
  ⟨rfl,
   (C5_single_request_passthrough (NewClient "pods" "default")
      (fun _ => Except.error Err.timeout) (fun _ => Except.error Err.timeout)
      (fun _ => Except.error (Err.other "")) (fun _ => Except.error Err.timeout)
      (fun _ => none) "a" "" "" objA ⟨""⟩ {} {} {} {} {}
      []).2.2.2.2.2.2.2.2.2.1 Err.timeout rfl⟩

/-- C6: Client binding invariant — an instance built by `NewClient` with a
resource kind and namespace issues every one of its nine operations'
requests against exactly that resource and namespace; operations take the
client immutably and return only results, so nothing changes the bindings. -/
theorem C6_binding_invariant (resource namespc : String)
    (name pt data : String) (cr : Obj) (go : GetOptions) (lo : ListOptions)
    (co : CreateOptions) (uo : UpdateOptions) (dopts : DeleteOptions)
    (po : PatchOptions) (subs : StrSeq) :
    (NewClient resource namespc).resource = resource ∧
    (NewClient resource namespc).ns = namespc ∧
    ((NewClient resource namespc).getReq name go).resource = resource ∧
    ((NewClient resource namespc).getReq name go).ns = namespc ∧
    ((NewClient resource namespc).listReq lo).resource = resource ∧
    ((NewClient resource namespc).listReq lo).ns = namespc ∧
    ((NewClient resource namespc).watchReq lo).resource = resource ∧
    ((NewClient resource namespc).watchReq lo).ns = namespc ∧
    ((NewClient resource namespc).createReq cr co).resource = resource ∧
    ((NewClient resource namespc).createReq cr co).ns = namespc ∧
    ((NewClient resource namespc).updateReq cr uo).resource = resource ∧
    ((NewClient resource namespc).updateReq cr uo).ns = namespc ∧
    ((NewClient resource namespc).updateStatusReq cr uo).resource = resource ∧
    ((NewClient resource namespc).updateStatusReq cr uo).ns = namespc ∧
    ((NewClient resource namespc).deleteReq name dopts).resource = resource ∧
    ((NewClient resource namespc).deleteReq name dopts).ns = namespc ∧
    ((NewClient resource namespc).deleteCollectionReq dopts lo).resource = resource ∧
    ((NewClient resource namespc).deleteCollectionReq dopts lo).ns = namespc ∧
    ((NewClient resource namespc).patchReq name pt data po subs).resource = resource ∧
    ((NewClient resource namespc).patchReq name pt data po subs).ns = namespc :=
  ⟨rfl, rfl, rfl, rfl, rfl, rfl, rfl, rfl, rfl, rfl,
   rfl, rfl, rfl, rfl, rfl, rfl, rfl, rfl, rfl, rfl⟩

/-- A concrete caller-supplied ListOptions value whose watch flag is
false. -/
def optsPlain : ListOptions :=
  { labelSelector := "app=demo", fieldSelector := "spec.nodeName=n1",
    watch := false, resourceVersion := "42", timeoutSeconds := some 5 }

/-- C7 counterexample: the claim that List and Watch forward the
caller-supplied options to the transport unmodified — altering no option
field — is false: `client.Watch` sets the options' watch flag to true
before attaching them, so the parameters of the request it issues differ
from the caller's options value. -/
theorem C7_counterexample :
    ((NewClient "pods" "default").watchReq optsPlain).params
      ≠ Params.listP optsPlain := by
  decide

/-- C7 amended: `client.List` forwards the caller's options entirely
unmodified; `client.Watch` forwards every caller-supplied field
(label/field selectors, resource version, timeout) unmodified except the
watch flag, which it sets to true; the informer layer wrapping List+Watch
alters no option field itself — it applies exactly the caller-supplied
options modifier when one is given and passes the options through
untouched otherwise. -/
theorem C7_options_passthrough (c : Client) (opts : ListOptions)
    (m : ListOptions → ListOptions) (trL : Request → Except Err ObjList)
    (trW : Request → Except Err WatchHandle) :
    (c.listReq opts).params = Params.listP opts ∧
    (c.listReq opts).timeout = timeoutOf opts ∧
    (c.watchReq opts).params = Params.listP { opts with watch := true } ∧
    (c.watchReq opts).timeout = timeoutOf opts ∧
    informerListFunc c none trL opts = Client.List c trL opts ∧
    informerWatchFunc c none trW opts = Client.Watch c trW opts ∧
    informerListFunc c (some m) trL opts = Client.List c trL (m opts) ∧
    informerWatchFunc c (some m) trW opts = Client.Watch c trW (m opts) :=
  ⟨rfl, rfl, rfl, rfl, rfl, rfl, rfl, rfl⟩

/-- C8 counterexample: the claim that handlers can be added or removed
while the informer is running is false — the session operations reified
from the code (event delivery and relisting are everything the running
informer does) leave the handler installed at construction untouched, so
no run of a started session ever changes it. -/
theorem C8_counterexample :
    ¬ ∃ (h : Option HandlerId) (ops : List SessionOp),
        (Session.run (Informer.start h) ops).handler
          ≠ (Informer.start h).handler := by
  intro hex
  rcases hex with ⟨h, ops, hne⟩
  exact hne (Session.run_handler (Informer.start h) ops)

/-- C8 amended: handler registration is static — `Informer` accepts at
most one handler, fixed before the sync session starts; every operation of
the running session (event delivery, relisting) preserves that handler, so
the registered-handler set is constant for the whole session. -/
theorem C8_static_registration (h : Option HandlerId) (ops : List SessionOp) :
    (Session.run (Informer.start h) ops).handler = informerHandler h :=
  Session.run_handler (Informer.start h) ops
